import Mathlib

/-!
Verification of the round lifecycle scheduler and settlement engine of the
clg-v5 betting server (`server/routes/games.js` and the variant route file in
`src/server/routes/games.js`, plus `server/routes/wallet.js`).

The JavaScript code is shallowly embedded: Mongoose documents become Lean
structures, collections become lists, and each route handler or helper
function becomes a pure Lean function on an explicit database / server state.
Status strings (`waiting`/`betting`/`completed`, `pending`/`win`/`loss`) are
kept as the string literals the source uses.  `Math.floor(Math.random() * 10)`
is modelled as an explicit draw parameter `rand`.  `parseInt` on a bet value
is modelled by `parseIntM` (a non-numeric string never equals the result
number, matching `NaN === n` being false).  Wall-clock timestamps are `Int`
milliseconds.
-/

/-- A `Game` document (one betting round), as in the Mongoose `Game` model. -/
structure Game where
  id : Nat
  gameNumber : Int
  status : String
  startTime : Int
  endTime : Option Int
  isFixed : Bool
  fixedResult : Option Int
  resultNumber : Option Int
  resultColor : Option String
  resultSize : Option String
  createdAt : Int
deriving Repr, DecidableEq

/-- A `Bet` document (one wager), as in the Mongoose `Bet` model. -/
structure Bet where
  id : Nat
  userId : Nat
  gameId : Nat
  betType : String
  betValue : String
  amount : Int
  result : String
  payout : Int
deriving Repr, DecidableEq

/-- A `Wallet` document: one account's balance. -/
structure Wallet where
  userId : Nat
  balance : Int
deriving Repr, DecidableEq

/-- A `Transaction` document (ledger entry).  The free-text `description`
field is display-only and omitted. -/
structure Transaction where
  userId : Nat
  txType : String
  amount : Int
  txStatus : String
deriving Repr, DecidableEq

/-- The persistent store: the four collections the games routes touch. -/
structure DB where
  games : List Game
  bets : List Bet
  wallets : List Wallet
  transactions : List Transaction
deriving Repr, DecidableEq

/-- Module-level mutable server state: the database plus the global flags
`gameCreationInProgress` and `continuousGamesEnabled` of the route module. -/
structure ServerState where
  db : DB
  gameCreationInProgress : Bool
  continuousGamesEnabled : Bool
deriving Repr, DecidableEq

/-- Evaluates `resultNumber = game.fixedResult !== null ? game.fixedResult
: Math.floor(Math.random() * 10)`; `rand` is the random draw. -/
def endGameResult (rand : Int) (g : Game) : Int :=
  match g.fixedResult with
  | some v => v
  | none => rand

/-- Evaluates `resultNumber === 0 ? 'green' : (resultNumber % 2 === 0 ? 'red' : 'green')`. -/
def resultColorOf (n : Int) : String :=
  if n = 0 then "green" else if n % 2 = 0 then "red" else "green"

/-- Evaluates `resultNumber >= 5 ? 'big' : 'small'`. -/
def resultSizeOf (n : Int) : String :=
  if 5 ≤ n then "big" else "small"

/-- Accumulate a decimal digit string; any non-digit character yields
`none`. -/
def parseDigits : List Char → Nat → Option Nat
  | [], acc => some acc
  | c :: cs, acc =>
    if c.isDigit then parseDigits cs (acc * 10 + (c.toNat - '0'.toNat)) else none

/-- Model of JavaScript `parseInt` on the bet-value strings this app uses:
an optional minus sign followed by decimal digits parses to that integer,
anything else (a color or size word, the empty string) is `NaN`, modelled
as `none`. -/
def parseIntM (s : String) : Option Int :=
  match s.data with
  | [] => none
  | '-' :: cs =>
    match cs with
    | [] => none
    | _ :: _ => (parseDigits cs 0).map fun n => -(n : Int)
  | cs => (parseDigits cs 0).map fun n => (n : Int)

/-- The `switch (bet.betType)` win test in `endGameAndProcessBets`:
`parseInt(betValue) === resultNumber` for number bets (a `NaN` parse never
matches), string equality with the result color / size otherwise; an
unknown bet type never wins. -/
def betIsWin (betType betValue : String) (rn : Int) (rc rs : String) : Bool :=
  if betType = "number" then
    match parseIntM betValue with
    | some v => v == rn
    | none => false
  else if betType = "color" then betValue == rc
  else if betType = "size" then betValue == rs
  else false

/-- The multiplier set by the same `switch`: 9 for number, 2 for color and
size, and the initial value 1 for any other bet type. -/
def multiplierOf (betType : String) : Int :=
  if betType = "number" then 9
  else if betType = "color" then 2
  else if betType = "size" then 2
  else 1

/-- Models `Wallet.findOne({ userId }); wallet.balance += amt; wallet.save()`:
credit the first wallet of the user, a silent no-op when none exists. -/
def creditWallet (uid : Nat) (amt : Int) : List Wallet → List Wallet
  | [] => []
  | w :: ws =>
    if w.userId = uid then { w with balance := w.balance + amt } :: ws
    else w :: creditWallet uid amt ws

/-- Models `wallet.balance -= amount; wallet.save()` on the first wallet of the
user (the bet route has already checked it exists). -/
def debitWallet (uid : Nat) (amt : Int) : List Wallet → List Wallet
  | [] => []
  | w :: ws =>
    if w.userId = uid then { w with balance := w.balance - amt } :: ws
    else w :: debitWallet uid amt ws

/-- The `for (const bet of bets)` settlement loop of
`endGameAndProcessBets`, over `Bet.find({ gameId, result: 'pending' })`:
each pending bet of the game is marked win/loss with its payout, winners'
wallets are credited in order and one `win` transaction is appended per
winner.  Bets of other games or already settled pass through unchanged. -/
def processPending (rn : Int) (rc rs : String) (gid : Nat) :
    List Bet → List Wallet → List Transaction →
    List Bet × List Wallet × List Transaction
  | [], ws, ts => ([], ws, ts)
  | b :: bs, ws, ts =>
    if b.gameId = gid ∧ b.result = "pending" then
      let isWin := betIsWin b.betType b.betValue rn rc rs
      let payout := if isWin then b.amount * multiplierOf b.betType else 0
      let b' := { b with result := if isWin then "win" else "loss",
                         payout := payout }
      let ws' := if isWin then creditWallet b.userId payout ws else ws
      let ts' := if isWin then
          ts ++ [{ userId := b.userId, txType := "win", amount := payout,
                   txStatus := "approved" }]
        else ts
      let r := processPending rn rc rs gid bs ws' ts'
      (b' :: r.1, r.2)
    else
      let r := processPending rn rc rs gid bs ws ts
      (b :: r.1, r.2)

/-- The round document after `endGameAndProcessBets` saves it: status
completed, `endTime = new Date()`, and the three result fields. -/
def updatedGame (now rand : Int) (g : Game) : Game :=
  let rn := endGameResult rand g
  { g with status := "completed", endTime := some now,
           resultNumber := some rn,
           resultColor := some (resultColorOf rn),
           resultSize := some (resultSizeOf rn) }

/-- Models `endGameAndProcessBets(game)`: resolve the outcome (override or the
random draw `rand`), save the completed game, then settle every pending bet
of the game, crediting winners. -/
def endGameAndProcessBets (now rand : Int) (g : Game) (db : DB) : DB :=
  let rn := endGameResult rand g
  let games' := db.games.map fun x => if x.id = g.id then updatedGame now rand g else x
  let r := processPending rn (resultColorOf rn) (resultSizeOf rn) g.id
    db.bets db.wallets db.transactions
  { games := games', bets := r.1, wallets := r.2.1, transactions := r.2.2 }

/-- Models `Game.findById(gameId)`. -/
def findGame (gid : Nat) (gs : List Game) : Option Game :=
  gs.find? fun g => g.id == gid

/-- Models `Bet.findOne({ userId, gameId })`. -/
def findBet (uid gid : Nat) (bs : List Bet) : Option Bet :=
  bs.find? fun b => b.userId == uid && b.gameId == gid

/-- Models `Wallet.findOne({ userId })`. -/
def findWallet (uid : Nat) (ws : List Wallet) : Option Wallet :=
  ws.find? fun w => w.userId == uid

/-- Outcome of a route handler: the JSON success payload or the error sent
with a 4xx status. -/
inductive BetResponse
  | ok (bet : Bet)
  | err (msg : String)
deriving Repr, DecidableEq

/-- The `POST /bet` route: validate the game is in `betting` status, reject a
second bet by the same user on the same game, reject a missing wallet or a
balance below the amount, then create the pending bet, debit the wallet and
append a `bet` transaction.  `freshId` is the id assigned to the new
document. -/
def placeBet (uid gid : Nat) (betType betValue : String) (amount : Int)
    (freshId : Nat) (db : DB) : BetResponse × DB :=
  match findGame gid db.games with
  | none => (.err "Game is not accepting bets", db)
  | some g =>
    if g.status ≠ "betting" then (.err "Game is not accepting bets", db)
    else match findBet uid gid db.bets with
      | some _ => (.err "You have already placed a bet for this game", db)
      | none =>
        match findWallet uid db.wallets with
        | none => (.err "Insufficient balance", db)
        | some w =>
          if w.balance < amount then (.err "Insufficient balance", db)
          else
            let bet : Bet := { id := freshId, userId := uid, gameId := gid,
                               betType := betType, betValue := betValue,
                               amount := amount, result := "pending", payout := 0 }
            (.ok bet,
             { db with
                bets := db.bets ++ [bet],
                wallets := debitWallet uid amount db.wallets,
                transactions := db.transactions ++
                  [{ userId := uid, txType := "bet", amount := -amount,
                     txStatus := "approved" }] })

/-- Models `Game.findOne({ status: { $in: ['waiting','betting'] } })
.sort({ createdAt: -1 })`: the most recently created active game. -/
def latestActive (gs : List Game) : Option Game :=
  (gs.filter fun g => g.status == "waiting" || g.status == "betting").foldl
    (fun acc g =>
      match acc with
      | none => some g
      | some a => if a.createdAt < g.createdAt then some g else some a)
    none

/-- Models `Game.findOne().sort({ gameNumber: -1 })` followed by
`lastGame ? lastGame.gameNumber + 1 : 1`. -/
def nextGameNumber (gs : List Game) : Int :=
  match gs.foldl
      (fun acc g =>
        match acc with
        | none => some g
        | some a => if a.gameNumber < g.gameNumber then some g else some a)
      none with
  | some last => last.gameNumber + 1
  | none => 1

/-- Models `createNewGameSafely()`: bail out while `gameCreationInProgress`; return
the already existing active game when there is one; otherwise persist a new
`waiting` game numbered `nextGameNumber`, starting 5 seconds from now.  In
this single-writer model the save never hits a duplicate-key error, so the
bounded retry loop succeeds on its first attempt, and the in-progress flag,
set on entry and cleared in the `finally` block, is restored on every path. -/
def createNewGameSafely (now : Int) (newId : Nat) (s : ServerState) :
    Option Game × ServerState :=
  if s.gameCreationInProgress then (none, s)
  else
    match latestActive s.db.games with
    | some existing => (some existing, s)
    | none =>
      let g : Game := { id := newId, gameNumber := nextGameNumber s.db.games,
                        status := "waiting", startTime := now + 5000,
                        endTime := none, isFixed := false, fixedResult := none,
                        resultNumber := none, resultColor := none,
                        resultSize := none, createdAt := now }
      (some g, { s with db := { s.db with games := s.db.games ++ [g] } })

/-- Outcome of the admin `PUT /:id/end` route. -/
inductive EndResponse
  | ok
  | notFound
  | alreadyCompleted
deriving Repr, DecidableEq

/-- The `PUT /:id/end` route of `src/server/routes/games.js`: find the game
and run `endGameAndProcessBets` on it unconditionally (no completed-status
guard). -/
def endRoundGamesJs (now rand : Int) (gid : Nat) (db : DB) : EndResponse × DB :=
  match findGame gid db.games with
  | none => (.notFound, db)
  | some g => (.ok, endGameAndProcessBets now rand g db)

/-- The `PUT /:id/end` route of the variant file (part_001): identical except
that a game whose status is already `completed` is rejected with
"Game is already completed". -/
def endRoundPart001 (now rand : Int) (gid : Nat) (db : DB) : EndResponse × DB :=
  match findGame gid db.games with
  | none => (.notFound, db)
  | some g =>
    if g.status = "completed" then (.alreadyCompleted, db)
    else (.ok, endGameAndProcessBets now rand g db)

/-- The `POST /start-continuous` route (part_001 variant): set
`continuousGamesEnabled`, mark every `waiting`/`betting` game `completed`
with `endTime = new Date()` via `updateMany` — touching no other field and
settling no bet — and then call `createNewGameSafely`.  (The
`startGameMonitoring()` call only installs a timer and is a no-op on the
store.) -/
def startContinuous (now : Int) (newId : Nat) (s : ServerState) :
    Option Game × ServerState :=
  let s1 := { s with continuousGamesEnabled := true }
  let games' := s1.db.games.map fun g =>
    if g.status == "waiting" || g.status == "betting" then
      { g with status := "completed", endTime := some now }
    else g
  let s2 := { s1 with db := { s1.db with games := games' } }
  createNewGameSafely now newId s2

/-- One iteration of the settlement loop as a function on a single bet: a
pending bet of the game is marked win/loss with its payout, anything else is
untouched.  The bets component of `processPending` is the map of this. -/
def settleStep (rn : Int) (rc rs : String) (gid : Nat) (b : Bet) : Bet :=
  if b.gameId = gid ∧ b.result = "pending" then
    let isWin := betIsWin b.betType b.betValue rn rc rs
    { b with result := if isWin then "win" else "loss",
             payout := if isWin then b.amount * multiplierOf b.betType else 0 }
  else b

/-- The win rule of spec §4.3, stated from the spec's words: the selector
matches the outcome under its category's rule (exact value for `number`,
derived color class for `color`, derived size class for `size`). -/
def specMatches (bt bv : String) (rn : Int) : Prop :=
  (bt = "number" ∧ parseIntM bv = some rn) ∨
  (bt = "color" ∧ bv = resultColorOf rn) ∨
  (bt = "size" ∧ bv = resultSizeOf rn)

instance (bt bv : String) (rn : Int) : Decidable (specMatches bt bv rn) := by
  unfold specMatches; infer_instance

/-- Failure condition of claim C9, spec side: the referenced round is absent
or not in the `betting` state. -/
def specRoundNotOpen (gid : Nat) (gs : List Game) : Bool :=
  match findGame gid gs with
  | none => true
  | some g => g.status != "betting"

/-- Failure condition of claim C9, spec side: the account already wagered on
the round. -/
def specDuplicateWager (uid gid : Nat) (bs : List Bet) : Bool :=
  (findBet uid gid bs).isSome

/-- Failure condition of claim C9, spec side: the account's balance cannot
cover the stake (no wallet record, or balance below the amount). -/
def specInsufficientBalance (uid : Nat) (amount : Int) (ws : List Wallet) : Bool :=
  match findWallet uid ws with
  | none => true
  | some w => decide (w.balance < amount)

/-- A sequence of `createNewGameSafely` attempts (each with its wall-clock
time and candidate id), run left to right. -/
def runAttempts (ps : List (Int × Nat)) (s : ServerState) : ServerState :=
  ps.foldl (fun st p => (createNewGameSafely p.1 p.2 st).2) s

/-! Concrete states used by witnesses and counterexamples. -/

/-- A round in `betting` state whose result is fixed to 3. -/
def exRoundFixed3 : Game :=
  ⟨1, 1, "betting", 0, none, true, some 3, none, none, none, 0⟩

/-- A pending number-3 wager of 10 by user 1 on round 1. -/
def exBetNumber3 : Bet := ⟨10, 1, 1, "number", "3", 10, "pending", 0⟩

/-- Store with round 1 (fixed to 3), the number-3 wager, and user 1's wallet. -/
def exDB1 : DB := ⟨[exRoundFixed3], [exBetNumber3], [⟨1, 0⟩], []⟩

/-- A completed round with outcome 5 and end time 100. -/
def exCompletedRound : Game :=
  ⟨1, 1, "completed", 0, some 100, false, none, some 5, some "green", some "big", 0⟩

/-- Store holding only the completed round. -/
def exDB2 : DB := ⟨[exCompletedRound], [], [], []⟩

/-- A round still in `waiting` state. -/
def exActiveRound : Game :=
  ⟨1, 1, "waiting", 5000, none, false, none, none, none, none, 0⟩

/-- Server state with one active (waiting) round and no creation in flight. -/
def exState6 : ServerState := ⟨⟨[exActiveRound], [], [], []⟩, false, false⟩

/-- A stray round left in `betting` state from a prior session. -/
def exStrayRound : Game :=
  ⟨1, 1, "betting", 0, none, false, none, none, none, none, 0⟩

/-- A pending color wager of 25 by user 2 on the stray round. -/
def exStrayBet : Bet := ⟨10, 2, 1, "color", "red", 25, "pending", 0⟩

/-- Server state before `start-continuous`: the stray round, its pending
wager, and user 2's wallet. -/
def exState7 : ServerState :=
  ⟨⟨[exStrayRound], [exStrayBet], [⟨2, 100⟩], []⟩, false, false⟩

/-- A pending number-3 wager of 10 by user 9, who has no wallet record. -/
def exBetNoWallet : Bet := ⟨11, 9, 1, "number", "3", 10, "pending", 0⟩

/-- Store with round 1 (fixed to 3), user 9's wager, and an empty wallet
collection. -/
def exDB8 : DB := ⟨[exRoundFixed3], [exBetNoWallet], [], []⟩

/-- A round currently accepting bets. -/
def exBettingRound : Game :=
  ⟨1, 1, "betting", 0, none, false, none, none, none, none, 0⟩

/-- Store with the betting round, no bets yet, and user 4 holding 50. -/
def exDB9 : DB := ⟨[exBettingRound], [], [⟨4, 50⟩], []⟩

/-- A round in `betting` state whose result is fixed to 7 (spec Scenario B). -/
def exRoundFixed7 : Game :=
  ⟨1, 1, "betting", 0, none, true, some 7, none, none, none, 0⟩

/-- Store holding only the round fixed to 7. -/
def exDB4 : DB := ⟨[exRoundFixed7], [], [], []⟩

/-! Helper lemmas. -/

theorem processPending_fst (rn : Int) (rc rs : String) (gid : Nat) :
    ∀ (bs : List Bet) (ws : List Wallet) (ts : List Transaction),
      (processPending rn rc rs gid bs ws ts).1 = bs.map (settleStep rn rc rs gid)
  | [], _, _ => by simp [processPending]
  | b :: bs, ws, ts => by
    by_cases h : b.gameId = gid ∧ b.result = "pending" <;>
      simp [processPending, settleStep, h, processPending_fst rn rc rs gid bs]

theorem processPending_nop (rn : Int) (rc rs : String) (gid : Nat) :
    ∀ (bs : List Bet) (ws : List Wallet) (ts : List Transaction),
      (∀ b ∈ bs, ¬(b.gameId = gid ∧ b.result = "pending")) →
      processPending rn rc rs gid bs ws ts = (bs, ws, ts)
  | [], _, _, _ => by simp [processPending]
  | b :: bs, ws, ts, h => by
    have hb := h b (List.mem_cons_self b bs)
    have hrest := processPending_nop rn rc rs gid bs ws ts
      (fun x hx => h x (List.mem_cons_of_mem b hx))
    simp [processPending, hb, hrest]

theorem settleStep_gameId (rn : Int) (rc rs : String) (gid : Nat) (b : Bet) :
    (settleStep rn rc rs gid b).gameId = b.gameId := by
  unfold settleStep; split <;> rfl

theorem settleStep_not_pending (rn : Int) (rc rs : String) (gid : Nat) (b : Bet)
    (hg : b.gameId = gid) : (settleStep rn rc rs gid b).result ≠ "pending" := by
  unfold settleStep
  by_cases h : b.gameId = gid ∧ b.result = "pending"
  · rw [if_pos h]
    by_cases hw : betIsWin b.betType b.betValue rn rc rs <;> simp [hw]
  · rw [if_neg h]
    intro hcon
    exact h ⟨hg, hcon⟩

theorem endGame_bets (now rand : Int) (g : Game) (db : DB) :
    (endGameAndProcessBets now rand g db).bets =
      db.bets.map (settleStep (endGameResult rand g)
        (resultColorOf (endGameResult rand g))
        (resultSizeOf (endGameResult rand g)) g.id) := by
  simp [endGameAndProcessBets, processPending_fst]

theorem betIsWin_eq_true_iff (bt bv : String) (rn : Int) :
    betIsWin bt bv rn (resultColorOf rn) (resultSizeOf rn) = true ↔
      specMatches bt bv rn := by
  have h1 : ("color" : String) ≠ "number" := by decide
  have h2 : ("size" : String) ≠ "number" := by decide
  have h3 : ("size" : String) ≠ "color" := by decide
  unfold betIsWin specMatches
  by_cases hn : bt = "number"
  · subst hn
    cases hv : parseIntM bv <;> simp [hv]
  · by_cases hc : bt = "color"
    · subst hc
      simp [h1]
    · by_cases hs : bt = "size"
      · subst hs
        simp [h2, h3]
      · simp [hn, hc, hs]

theorem multiplierOf_pos (bt : String) : 0 < multiplierOf bt := by
  unfold multiplierOf
  split <;> norm_num
  split <;> norm_num
  split <;> norm_num

theorem multiplierOf_of_matches (bt bv : String) (rn : Int)
    (h : specMatches bt bv rn) :
    multiplierOf bt = if bt = "number" then 9 else 2 := by
  rcases h with ⟨hbt, -⟩ | ⟨hbt, -⟩ | ⟨hbt, -⟩ <;> subst hbt <;> decide

theorem endGame_no_pending (now rand : Int) (g : Game) (db : DB) :
    ∀ b ∈ (endGameAndProcessBets now rand g db).bets,
      ¬(b.gameId = g.id ∧ b.result = "pending") := by
  intro b hb hcon
  rw [endGame_bets] at hb
  obtain ⟨a, _, rfl⟩ := List.mem_map.mp hb
  exact settleStep_not_pending _ _ _ _ a
    ((settleStep_gameId _ _ _ _ a) ▸ hcon.1) hcon.2

theorem endGame_nop_of_no_pending (now rand : Int) (g : Game) (db : DB)
    (h : ∀ b ∈ db.bets, ¬(b.gameId = g.id ∧ b.result = "pending")) :
    (endGameAndProcessBets now rand g db).bets = db.bets ∧
    (endGameAndProcessBets now rand g db).wallets = db.wallets ∧
    (endGameAndProcessBets now rand g db).transactions = db.transactions := by
  have hid := processPending_nop (endGameResult rand g)
    (resultColorOf (endGameResult rand g)) (resultSizeOf (endGameResult rand g)) g.id
    db.bets db.wallets db.transactions h
  refine ⟨?_, ?_, ?_⟩ <;> simp only [endGameAndProcessBets, hid]

/-- C3: settlement is idempotent.  A second `endGameAndProcessBets` pass on
the same round finds no wager still `pending` (the first pass settled them
all and the query filters on `result: 'pending'`), so it changes no bet,
credits no wallet, and writes no transaction. -/
theorem settlement_idempotent (now₁ rand₁ now₂ rand₂ : Int) (g : Game) (db : DB) :
    (endGameAndProcessBets now₂ rand₂ g (endGameAndProcessBets now₁ rand₁ g db)).bets =
      (endGameAndProcessBets now₁ rand₁ g db).bets ∧
    (endGameAndProcessBets now₂ rand₂ g (endGameAndProcessBets now₁ rand₁ g db)).wallets =
      (endGameAndProcessBets now₁ rand₁ g db).wallets ∧
    (endGameAndProcessBets now₂ rand₂ g (endGameAndProcessBets now₁ rand₁ g db)).transactions =
      (endGameAndProcessBets now₁ rand₁ g db).transactions :=
  endGame_nop_of_no_pending now₂ rand₂ g _ (endGame_no_pending now₁ rand₁ g db)

/-- C1: after settlement, every wager that was `pending` on the round is
terminal (win or loss, never pending), wins exactly when its selector
matches the outcome under its category's rule (§4.3), pays
`stake × multiplier` (9 for number, 2 for color and size) on a win and 0 on
a loss. -/
theorem settlement_terminal_and_payout (now rand : Int) (g : Game) (db : DB)
    (b : Bet) (hmem : b ∈ db.bets) (hgid : b.gameId = g.id)
    (hpend : b.result = "pending") (hamt : 0 < b.amount) :
    ∃ b', b' ∈ (endGameAndProcessBets now rand g db).bets ∧
      b'.id = b.id ∧ b'.userId = b.userId ∧ b'.gameId = b.gameId ∧
      b'.betType = b.betType ∧ b'.betValue = b.betValue ∧ b'.amount = b.amount ∧
      b'.result ≠ "pending" ∧
      (specMatches b.betType b.betValue (endGameResult rand g) →
        b'.result = "win" ∧
        b'.payout = b.amount * (if b.betType = "number" then 9 else 2)) ∧
      (¬ specMatches b.betType b.betValue (endGameResult rand g) →
        b'.result = "loss" ∧ b'.payout = 0) ∧
      (b'.payout = b.amount * (if b.betType = "number" then 9 else 2) ↔
        specMatches b.betType b.betValue (endGameResult rand g)) := by
  set rn := endGameResult rand g with hrn
  set b' := settleStep rn (resultColorOf rn) (resultSizeOf rn) g.id b with hb'
  have hfields : b'.id = b.id ∧ b'.userId = b.userId ∧ b'.gameId = b.gameId ∧
      b'.betType = b.betType ∧ b'.betValue = b.betValue ∧ b'.amount = b.amount := by
    rw [hb']
    unfold settleStep
    split <;> exact ⟨rfl, rfl, rfl, rfl, rfl, rfl⟩
  have hres : b'.result =
      (if betIsWin b.betType b.betValue rn (resultColorOf rn) (resultSizeOf rn)
        then "win" else "loss") := by
    rw [hb']; unfold settleStep; rw [if_pos ⟨hgid, hpend⟩]
  have hpay : b'.payout =
      (if betIsWin b.betType b.betValue rn (resultColorOf rn) (resultSizeOf rn)
        then b.amount * multiplierOf b.betType else 0) := by
    rw [hb']; unfold settleStep; rw [if_pos ⟨hgid, hpend⟩]
  refine ⟨b', ?_, hfields.1, hfields.2.1, hfields.2.2.1, hfields.2.2.2.1,
    hfields.2.2.2.2.1, hfields.2.2.2.2.2, ?_, ?_, ?_, ?_⟩
  · rw [endGame_bets]
    exact List.mem_map_of_mem _ hmem
  · cases hw : betIsWin b.betType b.betValue rn (resultColorOf rn) (resultSizeOf rn) <;>
      rw [hw] at hres <;> simp only [if_true, if_false, Bool.false_eq_true] at hres <;>
      rw [hres] <;> decide
  · intro hmat
    have hw := (betIsWin_eq_true_iff b.betType b.betValue rn).mpr hmat
    have hmul := multiplierOf_of_matches b.betType b.betValue rn hmat
    rw [hw] at hres hpay
    simp only [if_true] at hres hpay
    exact ⟨hres, by rw [hpay, hmul]⟩
  · intro hmat
    have hw : betIsWin b.betType b.betValue rn (resultColorOf rn) (resultSizeOf rn) = false := by
      cases hwc : betIsWin b.betType b.betValue rn (resultColorOf rn) (resultSizeOf rn)
      · rfl
      · exact absurd ((betIsWin_eq_true_iff b.betType b.betValue rn).mp hwc) hmat
    rw [hw] at hres hpay
    simp only [Bool.false_eq_true, if_false] at hres hpay
    exact ⟨hres, hpay⟩
  · constructor
    · intro h0
      by_contra hmat
      have hw : betIsWin b.betType b.betValue rn (resultColorOf rn) (resultSizeOf rn) = false := by
        cases hwc : betIsWin b.betType b.betValue rn (resultColorOf rn) (resultSizeOf rn)
        · rfl
        · exact absurd ((betIsWin_eq_true_iff b.betType b.betValue rn).mp hwc) hmat
      rw [hw] at hpay
      simp only [Bool.false_eq_true, if_false] at hpay
      rw [hpay] at h0
      have hmpos : (0 : Int) < (if b.betType = "number" then 9 else 2) := by
        split <;> norm_num
      exact absurd h0.symm (ne_of_gt (mul_pos hamt hmpos))
    · intro hmat
      have hw := (betIsWin_eq_true_iff b.betType b.betValue rn).mpr hmat
      have hmul := multiplierOf_of_matches b.betType b.betValue rn hmat
      rw [hw] at hpay
      simp only [if_true] at hpay
      rw [hpay, hmul]

/-- Witness for C1: a number-3 wager of 10 on a round whose result is fixed
to 3 is settled as a win paying 90. -/
theorem settlement_terminal_and_payout_witness :
    ∃ b', b' ∈ (endGameAndProcessBets 100 0 exRoundFixed3 exDB1).bets ∧
      b'.id = exBetNumber3.id ∧ b'.userId = exBetNumber3.userId ∧
      b'.gameId = exBetNumber3.gameId ∧
      b'.betType = exBetNumber3.betType ∧ b'.betValue = exBetNumber3.betValue ∧
      b'.amount = exBetNumber3.amount ∧
      b'.result ≠ "pending" ∧
      (specMatches exBetNumber3.betType exBetNumber3.betValue
          (endGameResult 0 exRoundFixed3) →
        b'.result = "win" ∧
        b'.payout = exBetNumber3.amount *
          (if exBetNumber3.betType = "number" then 9 else 2)) ∧
      (¬ specMatches exBetNumber3.betType exBetNumber3.betValue
          (endGameResult 0 exRoundFixed3) →
        b'.result = "loss" ∧ b'.payout = 0) ∧
      (b'.payout = exBetNumber3.amount *
          (if exBetNumber3.betType = "number" then 9 else 2) ↔
        specMatches exBetNumber3.betType exBetNumber3.betValue
          (endGameResult 0 exRoundFixed3)) :=
  settlement_terminal_and_payout 100 0 exRoundFixed3 exDB1 exBetNumber3
    (by decide) (by decide) (by decide) (by decide)

/-- C2 (code bug): in `src/server/routes/games.js` the admin end route has
no completed-status guard, so ending an already completed round (outcome 5,
ended at 100) runs `endGameAndProcessBets` again and overwrites its
`resultNumber`, `resultColor`, `resultSize`, and `endTime` with fresh
values; the variant route file (part_001) rejects the same request with
"Game is already completed" and changes nothing. -/
theorem completed_round_overwritten_by_end_route :
    exCompletedRound.status = "completed" ∧
    exCompletedRound.resultNumber = some 5 ∧
    exCompletedRound.endTime = some 100 ∧
    (endRoundGamesJs 200 6 1 exDB2).1 = EndResponse.ok ∧
    (endRoundGamesJs 200 6 1 exDB2).2.games =
      [{ exCompletedRound with endTime := some 200, resultNumber := some 6,
                               resultColor := some "red", resultSize := some "big" }] ∧
    (endRoundPart001 200 6 1 exDB2).1 = EndResponse.alreadyCompleted ∧
    (endRoundPart001 200 6 1 exDB2).2 = exDB2 := by
  decide

/-- C4: the resolved outcome honors the override.  The saved round document
is `updatedGame`; when `fixedResult` is set its `resultNumber` equals the
override for every random draw (the draw has no influence), and when it is
unset `resultNumber` equals the draw. -/
theorem override_determines_outcome (now rand : Int) (g : Game) (db : DB)
    (hmem : g ∈ db.games) :
    updatedGame now rand g ∈ (endGameAndProcessBets now rand g db).games ∧
    (∀ v, g.fixedResult = some v →
      (updatedGame now rand g).resultNumber = some v ∧
      ∀ rand₂, updatedGame now rand₂ g = updatedGame now rand g) ∧
    (g.fixedResult = none → (updatedGame now rand g).resultNumber = some rand) := by
  refine ⟨?_, ?_, ?_⟩
  · have : (endGameAndProcessBets now rand g db).games =
        db.games.map fun x => if x.id = g.id then updatedGame now rand g else x := by
      simp [endGameAndProcessBets]
    rw [this]
    have := List.mem_map_of_mem
      (fun x => if x.id = g.id then updatedGame now rand g else x) hmem
    simpa using this
  · intro v hv
    constructor
    · simp [updatedGame, endGameResult, hv]
    · intro rand₂
      simp [updatedGame, endGameResult, hv]
  · intro hv
    simp [updatedGame, endGameResult, hv]

/-- Witness for C4: a round fixed to 7 resolves to exactly 7 for the draw 2
(and identically for every other draw). -/
theorem override_determines_outcome_witness :
    updatedGame 100 2 exRoundFixed7 ∈
      (endGameAndProcessBets 100 2 exRoundFixed7 exDB4).games ∧
    (∀ v, exRoundFixed7.fixedResult = some v →
      (updatedGame 100 2 exRoundFixed7).resultNumber = some v ∧
      ∀ rand₂, updatedGame 100 rand₂ exRoundFixed7 = updatedGame 100 2 exRoundFixed7) ∧
    (exRoundFixed7.fixedResult = none →
      (updatedGame 100 2 exRoundFixed7).resultNumber = some 2) :=
  override_determines_outcome 100 2 exRoundFixed7 exDB4 (by decide)

/-- C5: the derived classifications are deterministic pure functions of the
outcome value: 0 and every odd value classify as green, every nonzero even
value as red, every value ≥ 5 as big and every smaller value as small; the
saved round stores exactly these derivations of its result value. -/
theorem classification_rules (n : Int) :
    ((n = 0 ∨ n % 2 ≠ 0) → resultColorOf n = "green") ∧
    ((n ≠ 0 ∧ n % 2 = 0) → resultColorOf n = "red") ∧
    (5 ≤ n → resultSizeOf n = "big") ∧
    (n < 5 → resultSizeOf n = "small") ∧
    ∀ (now rand : Int) (g : Game),
      (updatedGame now rand g).resultColor =
        some (resultColorOf (endGameResult rand g)) ∧
      (updatedGame now rand g).resultSize =
        some (resultSizeOf (endGameResult rand g)) := by
  refine ⟨?_, ?_, ?_, ?_, ?_⟩
  · rintro (h0 | hodd)
    · simp [resultColorOf, h0]
    · by_cases h0 : n = 0
      · simp [resultColorOf, h0]
      · simp [resultColorOf, h0, hodd]
  · rintro ⟨h0, heven⟩
    simp [resultColorOf, h0, heven]
  · intro h
    simp [resultSizeOf, h]
  · intro h
    have : ¬ (5 ≤ n) := by omega
    simp [resultSizeOf, this]
  · intro now rand g
    exact ⟨rfl, rfl⟩

/-- Witness for C5: value 7 classifies as green (odd, the favorable class)
and big (7 ≥ 5), and value 4 classifies as red and small. -/
theorem classification_rules_witness :
    resultColorOf 7 = "green" ∧ resultSizeOf 7 = "big" ∧
    resultColorOf 4 = "red" ∧ resultSizeOf 4 = "small" :=
  ⟨(classification_rules 7).1 (Or.inr (by decide)),
   (classification_rules 7).2.2.1 (by norm_num),
   (classification_rules 4).2.1 ⟨by decide, by decide⟩,
   (classification_rules 4).2.2.2.1 (by norm_num)⟩

/-- Counterexample to C6 as stated: with a `waiting` round present and no
creation in flight, `createNewGameSafely` does not return Absent — it
returns the existing active round. -/
theorem createNewGameSafely_returns_existing_not_absent :
    latestActive exState6.db.games = some exActiveRound ∧
    (createNewGameSafely 1000 7 exState6).1 = some exActiveRound ∧
    (createNewGameSafely 1000 7 exState6).1 ≠ none := by
  decide

theorem createNewGameSafely_state_of_active (now : Int) (newId : Nat)
    (s : ServerState) (h : (latestActive s.db.games).isSome = true) :
    (createNewGameSafely now newId s).2 = s := by
  unfold createNewGameSafely
  by_cases hf : s.gameCreationInProgress
  · simp [hf]
  · cases hl : latestActive s.db.games with
    | none => rw [hl] at h; simp at h
    | some a => simp [hf, hl]

theorem runAttempts_fixed_of_active :
    ∀ (ps : List (Int × Nat)) (s : ServerState),
      (latestActive s.db.games).isSome = true → runAttempts ps s = s
  | [], _, _ => rfl
  | p :: ps, s, h => by
    show runAttempts ps (createNewGameSafely p.1 p.2 s).2 = s
    rw [createNewGameSafely_state_of_active p.1 p.2 s h]
    exact runAttempts_fixed_of_active ps s h

/-- C6 (amended): while any round is `waiting` or `betting`,
`createNewGameSafely` changes nothing — in particular it creates no round —
and returns the existing active round (or Absent when a creation attempt is
already in flight, not Absent in general); hence any sequence of creation
attempts creates zero rounds while one is active. -/
theorem creation_noop_while_active (now : Int) (newId : Nat) (s : ServerState)
    (h : (latestActive s.db.games).isSome = true) :
    (createNewGameSafely now newId s).2 = s ∧
    (createNewGameSafely now newId s).1 =
      (if s.gameCreationInProgress then none else latestActive s.db.games) ∧
    ∀ ps : List (Int × Nat), runAttempts ps s = s := by
  refine ⟨createNewGameSafely_state_of_active now newId s h, ?_,
    fun ps => runAttempts_fixed_of_active ps s h⟩
  unfold createNewGameSafely
  by_cases hf : s.gameCreationInProgress
  · simp [hf]
  · cases hl : latestActive s.db.games with
    | none => rw [hl] at h; simp at h
    | some a => simp [hf, hl]

/-- Witness for the amended C6 at the concrete state with one waiting
round. -/
theorem creation_noop_while_active_witness :
    (createNewGameSafely 1000 7 exState6).2 = exState6 ∧
    (createNewGameSafely 1000 7 exState6).1 =
      (if exState6.gameCreationInProgress then none
       else latestActive exState6.db.games) ∧
    ∀ ps : List (Int × Nat), runAttempts ps exState6 = exState6 :=
  creation_noop_while_active 1000 7 exState6 (by decide)

/-- C7 (code bug): `POST /start-continuous` marks the stray `betting` round
`completed` via `updateMany` with only `status` and `endTime`, assigning no
outcome and settling nothing: the stray round's pending wager is still
`pending` afterwards and no wallet was touched, while a fresh round was
created. -/
theorem startContinuous_leaves_stray_wagers_pending :
    exStrayBet.result = "pending" ∧
    (startContinuous 500 2 exState7).2.db.bets = [exStrayBet] ∧
    findGame 1 (startContinuous 500 2 exState7).2.db.games =
      some { exStrayRound with status := "completed", endTime := some 500 } ∧
    (startContinuous 500 2 exState7).2.db.wallets = exState7.db.wallets ∧
    (startContinuous 500 2 exState7).2.db.transactions = [] := by
  decide

/-- C8 (code bug): settling a winning wager whose account has no wallet
record marks the wager `win` with payout 90, credits no wallet (the wallet
collection stays empty), and the skip is silent — the settlement function
has no failure channel, and it still writes the `win` ledger entry as if
the credit had happened. -/
theorem settlement_win_without_wallet_credit_silent :
    (endGameAndProcessBets 200 0 exRoundFixed3 exDB8).bets =
      [{ exBetNoWallet with result := "win", payout := 90 }] ∧
    (endGameAndProcessBets 200 0 exRoundFixed3 exDB8).wallets = [] ∧
    (endGameAndProcessBets 200 0 exRoundFixed3 exDB8).transactions =
      [⟨9, "win", 90, "approved"⟩] := by
  decide

theorem findWallet_debit (uid : Nat) (amt : Int) :
    ∀ (ws : List Wallet) (w : Wallet), findWallet uid ws = some w →
      findWallet uid (debitWallet uid amt ws) =
        some { w with balance := w.balance - amt }
  | [], w, h => by simp [findWallet] at h
  | w0 :: ws, w, h => by
    by_cases he : w0.userId = uid
    · have hw0 : w0 = w := by
        simpa [findWallet, List.find?, he] using h
      subst hw0
      simp [debitWallet, findWallet, List.find?, he]
    · have hne : (w0.userId == uid) = false := by
        simp [he]
      have h' : findWallet uid ws = some w := by
        simpa [findWallet, List.find?, hne] using h
      simpa [debitWallet, findWallet, List.find?, he, hne] using
        findWallet_debit uid amt ws w h'

/-- C9: `POST /bet` rejects a wager (creating nothing and leaving the store
unchanged) exactly when the referenced round is absent or not in `betting`
state, or the account already wagered on that round, or the account's
balance cannot cover the stake (no wallet, or balance < amount); otherwise
it creates the pending wager, debits the stake from the wallet, and appends
the `bet` transaction. -/
theorem placeBet_fails_iff (uid gid : Nat) (bt bv : String) (amount : Int)
    (fid : Nat) (db : DB) :
    ((specRoundNotOpen gid db.games || specDuplicateWager uid gid db.bets ||
        specInsufficientBalance uid amount db.wallets) = true ↔
      ∃ m, (placeBet uid gid bt bv amount fid db).1 = BetResponse.err m) ∧
    ((specRoundNotOpen gid db.games || specDuplicateWager uid gid db.bets ||
        specInsufficientBalance uid amount db.wallets) = true →
      (placeBet uid gid bt bv amount fid db).2 = db) ∧
    ((specRoundNotOpen gid db.games || specDuplicateWager uid gid db.bets ||
        specInsufficientBalance uid amount db.wallets) = false →
      ∃ w, findWallet uid db.wallets = some w ∧
        (placeBet uid gid bt bv amount fid db).1 =
          BetResponse.ok ⟨fid, uid, gid, bt, bv, amount, "pending", 0⟩ ∧
        (placeBet uid gid bt bv amount fid db).2.bets =
          db.bets ++ [⟨fid, uid, gid, bt, bv, amount, "pending", 0⟩] ∧
        findWallet uid (placeBet uid gid bt bv amount fid db).2.wallets =
          some { w with balance := w.balance - amount } ∧
        (placeBet uid gid bt bv amount fid db).2.games = db.games ∧
        (placeBet uid gid bt bv amount fid db).2.transactions =
          db.transactions ++
            [⟨uid, "bet", -amount, "approved"⟩]) := by
  cases hg : findGame gid db.games with
  | none =>
    have hfail : specRoundNotOpen gid db.games = true := by
      simp [specRoundNotOpen, hg]
    simp [placeBet, hg, hfail]
  | some g =>
    by_cases hst : g.status = "betting"
    case neg =>
      have hfail : specRoundNotOpen gid db.games = true := by
        simp [specRoundNotOpen, hg, hst]
      simp [placeBet, hg, hst, hfail]
    case pos =>
      have hro : specRoundNotOpen gid db.games = false := by
        simp [specRoundNotOpen, hg, hst]
      cases hb : findBet uid gid db.bets with
      | some b0 =>
        have hdup : specDuplicateWager uid gid db.bets = true := by
          simp [specDuplicateWager, hb]
        simp [placeBet, hg, hst, hb, hro, hdup]
      | none =>
        have hdup : specDuplicateWager uid gid db.bets = false := by
          simp [specDuplicateWager, hb]
        cases hw : findWallet uid db.wallets with
        | none =>
          have hins : specInsufficientBalance uid amount db.wallets = true := by
            simp [specInsufficientBalance, hw]
          simp [placeBet, hg, hst, hb, hw, hro, hdup, hins]
        | some w =>
          by_cases hbal : w.balance < amount
          · have hins : specInsufficientBalance uid amount db.wallets = true := by
              simp [specInsufficientBalance, hw, hbal]
            simp [placeBet, hg, hst, hb, hw, hbal, hro, hdup, hins]
          · have hins : specInsufficientBalance uid amount db.wallets = false := by
              simp [specInsufficientBalance, hw, hbal]
            refine ⟨?_, ?_, ?_⟩
            · simp [placeBet, hg, hst, hb, hw, hbal, hro, hdup, hins]
            · intro hcon
              rw [hro, hdup, hins] at hcon
              simp at hcon
            · intro _
              refine ⟨w, rfl, ?_, ?_, ?_, ?_, ?_⟩ <;>
                simp [placeBet, hg, hst, hb, hw, hbal,
                  findWallet_debit uid amount db.wallets w hw]

/-- Witness for C9: on a store with a betting round, no prior bet and a
wallet holding 50, a bet of 20 succeeds, is recorded pending, and the
wallet drops to 30. -/
theorem placeBet_fails_iff_witness :
    ∃ w, findWallet 4 exDB9.wallets = some w ∧
      (placeBet 4 1 "color" "red" 20 77 exDB9).1 =
        BetResponse.ok ⟨77, 4, 1, "color", "red", 20, "pending", 0⟩ ∧
      (placeBet 4 1 "color" "red" 20 77 exDB9).2.bets =
        exDB9.bets ++ [⟨77, 4, 1, "color", "red", 20, "pending", 0⟩] ∧
      findWallet 4 (placeBet 4 1 "color" "red" 20 77 exDB9).2.wallets =
        some { w with balance := w.balance - 20 } ∧
      (placeBet 4 1 "color" "red" 20 77 exDB9).2.games = exDB9.games ∧
      (placeBet 4 1 "color" "red" 20 77 exDB9).2.transactions =
        exDB9.transactions ++ [⟨4, "bet", -20, "approved"⟩] :=
  (placeBet_fails_iff 4 1 "color" "red" 20 77 exDB9).2.2 (by decide)

/-- C10 (implicit): `POST /bet` never checks that the stake is positive:
for any amount ≤ 0 and any non-negative balance the insufficient-balance
check passes, the wager is created with the non-positive stake, and the
debit leaves the balance unchanged (amount = 0) or strictly increased
(amount < 0). -/
theorem placeBet_accepts_nonpositive_stake (uid gid : Nat) (bt bv : String)
    (amount : Int) (fid : Nat) (db : DB) (g : Game) (w : Wallet)
    (hg : findGame gid db.games = some g) (hst : g.status = "betting")
    (hnb : findBet uid gid db.bets = none)
    (hw : findWallet uid db.wallets = some w)
    (hamt : amount ≤ 0) (hbal : 0 ≤ w.balance) :
    ¬ (w.balance < amount) ∧
    (placeBet uid gid bt bv amount fid db).1 =
      BetResponse.ok ⟨fid, uid, gid, bt, bv, amount, "pending", 0⟩ ∧
    (placeBet uid gid bt bv amount fid db).2.bets =
      db.bets ++ [⟨fid, uid, gid, bt, bv, amount, "pending", 0⟩] ∧
    ∃ w', findWallet uid (placeBet uid gid bt bv amount fid db).2.wallets =
        some w' ∧
      w'.balance = w.balance - amount ∧
      (amount = 0 → w'.balance = w.balance) ∧
      (amount < 0 → w.balance < w'.balance) := by
  have hnl : ¬ (w.balance < amount) := by omega
  refine ⟨hnl, ?_, ?_, ?_⟩
  · simp [placeBet, hg, hst, hnb, hw, hnl]
  · simp [placeBet, hg, hst, hnb, hw, hnl]
  · refine ⟨{ w with balance := w.balance - amount }, ?_, rfl, ?_, ?_⟩
    · simp [placeBet, hg, hst, hnb, hw, hnl,
        findWallet_debit uid amount db.wallets w hw]
    · intro h0; simp [h0]
    · intro hneg; simp; omega

/-- Witness for C10: a bet of -5 from a wallet holding 50 is accepted and
the balance rises to 55. -/
theorem placeBet_accepts_nonpositive_stake_witness :
    ¬ ((50 : Int) < -5) ∧
    (placeBet 4 1 "color" "red" (-5) 78 exDB9).1 =
      BetResponse.ok ⟨78, 4, 1, "color", "red", -5, "pending", 0⟩ ∧
    (placeBet 4 1 "color" "red" (-5) 78 exDB9).2.bets =
      exDB9.bets ++ [⟨78, 4, 1, "color", "red", -5, "pending", 0⟩] ∧
    ∃ w', findWallet 4 (placeBet 4 1 "color" "red" (-5) 78 exDB9).2.wallets =
        some w' ∧
      w'.balance = (50 : Int) - (-5) ∧
      ((-5 : Int) = 0 → w'.balance = 50) ∧
      ((-5 : Int) < 0 → (50 : Int) < w'.balance) :=
  placeBet_accepts_nonpositive_stake 4 1 "color" "red" (-5) 78 exDB9
    exBettingRound ⟨4, 50⟩ (by decide) (by decide) (by decide) (by decide)
    (by decide) (by decide)
